import Mathlib

/-!
Shallow embedding of `src/shell.py` (the `ebash` repository): the `Shell`
pipeline builder/executor.  Pure data (stage descriptions, kwargs) is
translated directly; process spawning, stream reads, waits and polls are
parameterised by an environment that supplies each stage's observable
behaviour; Python exceptions are modelled with `Except`.
-/

namespace Ebash

/-- Python exceptions that the modelled code can raise or propagate. -/
inductive Exc where
  | assertionError
  | indexError
  | osError
  | keyboardInterrupt
  | brokenPipe
  deriving DecidableEq, Repr

/-- The special `subprocess` stream constants: `PIPE`, `STDOUT`, `DEVNULL`.
A kwarg value of `none` models Python `None` (inherit). -/
inductive Special where
  | PIPE
  | STDOUT
  | DEVNULL
  deriving DecidableEq, Repr

/-- Model of `class StdinType(Enum)` from `shell.py`: how a stage's stdin is sourced. -/
inductive StdinType where
  | NOINPUT
  | STDOUT
  | STDERR
  | PIPE
  deriving DecidableEq, Repr

/-- The value stored under `kwargs["stdin"]`: Python `None`,
`subprocess.PIPE`, or a handle taken from the previous process
(`processes[-1].stdout` / `processes[-1].stderr`). -/
inductive StdinKw where
  | noneVal
  | PIPE
  | fromPrevStdout
  | fromPrevStderr
  deriving DecidableEq, Repr

/-- The keyword arguments `_add_args` builds for `Popen`
(`stdout=`, `stderr=`, `stdin=`; the constant `encoding`/`text` entries
carry no routing information and are omitted). -/
structure Kwargs where
  stdout : Option Special := none
  stderr : Option Special := none
  stdin : StdinKw := StdinKw.noneVal
  deriving DecidableEq, Repr

/-- Model of `class PopenArgs(NamedTuple)`: one recorded pipeline stage.
`args` holds the command string; its tokenisation (`shlex.split`) is an
external collaborator and never inspected by the modelled logic. -/
structure PopenArgs where
  stdin : StdinType
  args : String
  kwargs : Kwargs
  input : Option String := none
  deriving DecidableEq, Repr

/-- The mutable fields of `class Shell` (`_return_code`, `_stdout`,
`_stderr`, `_input`, `_args`). -/
structure ShellState where
  _return_code : Int := 0
  _stdout : Option String := none
  _stderr : Option String := none
  _input : Option String := none
  _args : List PopenArgs := []
  deriving DecidableEq, Repr

/-- Observable behaviour of one spawned OS process, supplied by the
environment: what reading its captured stdout/stderr end-to-end yields (a
string, or an exception), what `wait()` does, what `poll()` reports, and
what writing the initial input to its stdin does. -/
structure Behavior where
  outContent : Except Exc String := Except.ok ""
  errContent : Except Exc String := Except.ok ""
  waitRes : Except Exc Unit := Except.ok ()
  pollVal : Option Int := some 0
  writeRes : Except Exc Unit := Except.ok ()

/-- A live `Popen` handle as the executor sees it.  `readStdout` /
`readStderr` are `some _` exactly when the process was created with
`stdout=subprocess.PIPE` / `stderr=subprocess.PIPE` (otherwise the Python
attribute is `None`); `hasStdin` is true exactly when it was created with
`stdin=subprocess.PIPE`. -/
structure Proc where
  readStdout : Option (Except Exc String)
  readStderr : Option (Except Exc String)
  hasStdin : Bool
  waitRes : Except Exc Unit
  pollVal : Option Int
  killed : Bool := false

/-- The environment of one execution: for each stage index, either the
spawn fails (`Popen` raises) or it yields a process with the given
behaviour. -/
def Env : Type := Nat → Except Exc Behavior

/-- When `Popen(*args, **kwargs)` succeeds: build the live-process view from
the kwargs (which streams are piped) and the environment's behaviour. -/
def mkProc (k : Kwargs) (b : Behavior) : Proc where
  readStdout := if k.stdout = some Special.PIPE then some b.outContent else none
  readStderr := if k.stderr = some Special.PIPE then some b.errContent else none
  hasStdin := k.stdin = StdinKw.PIPE
  waitRes := b.waitRes
  pollVal := b.pollVal
  killed := false

/-- The kill loop `for process in processes: process.kill()` from the `except` handler of
`_multiple_communicate`. -/
def killAll (ps : List Proc) : List Proc :=
  ps.map fun p => { p with killed := true }

/-- Python `processes[-1].poll() or 0`: `None` and `0` are falsy and give
`0`; every other integer (negative included) is truthy and kept. -/
def pyOrZero (v : Option Int) : Int :=
  match v with
  | none => 0
  | some n => if n = 0 then 0 else n

/-- Result of `_multiple_communicate`: the updated shell fields, the
process list (killed or not), and whether the call returned normally or
raised. -/
structure CommResult where
  shell : ShellState
  procs : List Proc
  outcome : Except Exc Unit

/-- The tail of `_multiple_communicate` after the captured-stream read:
`processes[-1].wait()` (which may raise, triggering the kill-all handler)
followed by `self._return_code = processes[-1].poll() or 0`. -/
def afterRead (sh : ShellState) (ps : List Proc) (last : Proc) : CommResult :=
  match last.waitRes with
  | Except.error e => { shell := sh, procs := killAll ps, outcome := Except.error e }
  | Except.ok _ =>
      { shell := { sh with _return_code := pyOrZero last.pollVal },
        procs := ps, outcome := Except.ok () }

/-- Model of `Shell._multiple_communicate(processes)` (shell.py lines 128-142):
read the last process's captured stdout if it has one, else its captured
stderr if it has one, then wait on it; on any exception every process is
killed and the exception re-raised; on success the return code is
recorded.  (`processes[-1]` on an empty list would raise `IndexError`
inside the `try`, hence the first branch.) -/
def multipleCommunicate (sh : ShellState) (ps : List Proc) : CommResult :=
  match ps.getLast? with
  | none => { shell := sh, procs := killAll ps, outcome := Except.error Exc.indexError }
  | some last =>
      match last.readStdout with
      | some (Except.error e) =>
          { shell := sh, procs := killAll ps, outcome := Except.error e }
      | some (Except.ok s) => afterRead { sh with _stdout := some s } ps last
      | none =>
          match last.readStderr with
          | some (Except.error e) =>
              { shell := sh, procs := killAll ps, outcome := Except.error e }
          | some (Except.ok s) => afterRead { sh with _stderr := some s } ps last
          | none => afterRead sh ps last

/-- Specification-side view of the `try` body of `_multiple_communicate`:
the first exception the drain would raise (reading the captured stream of
the last process, or waiting on it), if any. -/
def drainError (ps : List Proc) : Option Exc :=
  match ps.getLast? with
  | none => some Exc.indexError
  | some last =>
      match last.readStdout with
      | some (Except.error e) => some e
      | some (Except.ok _) =>
          match last.waitRes with
          | Except.error e => some e
          | Except.ok _ => none
      | none =>
          match last.readStderr with
          | some (Except.error e) => some e
          | _ =>
              match last.waitRes with
              | Except.error e => some e
              | Except.ok _ => none

/-- Apply `s[:-1]` when the captured string has a trailing newline.  The
Python test `s and s.endswith("\n")` — a non-empty string whose last
character is a newline — is phrased on `s.data` so that it computes. -/
def stripTrailingNl (s : String) : String :=
  if s.data ≠ [] ∧ s.data.getLast? = some '\n' then s.dropRight 1 else s

/-- Lines 125-126 of shell.py:
`if self._stdout and self._stdout.endswith("\n"): self._stdout = self._stdout[:-1]`.
Only `_stdout` is touched; `_stderr` is not. -/
def trimStdout (sh : ShellState) : ShellState :=
  match sh._stdout with
  | some s =>
      if s.data ≠ [] ∧ s.data.getLast? = some '\n' then
        { sh with _stdout := some (s.dropRight 1) }
      else sh
  | none => sh

/-- Phase in which a run ended, recorded in the result for bookkeeping:
`notRun` (no stages, the `execute` short-circuit), `spawning` (a `Popen`
call raised), `writing` (writing the initial input raised), `draining`
(`_multiple_communicate` raised), `done` (normal completion). -/
inductive Phase where
  | notRun
  | spawning
  | writing
  | draining
  | done
  deriving DecidableEq, Repr

/-- Result of driving `_inject` to completion from `execute`. -/
structure ExecResult where
  shell : ShellState
  procs : List Proc
  outcome : Except Exc Unit
  phase : Phase

/-- Lines 121-126 of `_inject`, reached once every stage spawned and the
initial input was written: `self._args.clear()`, then (the `execute`
driver resumes the generator) `self._multiple_communicate(processes)`,
then — only when that did not raise — the trailing-newline trim of
`self._stdout`. -/
def drainAndFinish (sh : ShellState) (ps : List Proc) : ExecResult :=
  let c := multipleCommunicate { sh with _args := [] } ps
  match c.outcome with
  | Except.error e =>
      { shell := c.shell, procs := c.procs, outcome := Except.error e, phase := Phase.draining }
  | Except.ok u =>
      { shell := trimStdout c.shell, procs := c.procs, outcome := Except.ok u, phase := Phase.done }

/-- The spawn loop `for stdin, args, kwargs, _ in self._args[1:]` of
`_inject`: wire the stage's stdin kwarg from the previous process's
stdout/stderr handle, then `Popen`; a spawn failure stops the loop and
propagates (the already-spawned processes stay). -/
def spawnRest (env : Env) (i : Nat) (stages : List PopenArgs) (acc : List Proc) :
    List Proc × Option Exc :=
  match stages with
  | [] => (acc, none)
  | a :: rest =>
      let k :=
        match a.stdin with
        | StdinType.STDOUT => { a.kwargs with stdin := StdinKw.fromPrevStdout }
        | StdinType.STDERR => { a.kwargs with stdin := StdinKw.fromPrevStderr }
        | _ => a.kwargs
      match env i with
      | Except.error e => (acc, some e)
      | Except.ok b => spawnRest env (i + 1) rest (acc ++ [mkProc k b])

/-- Model of `Shell._inject` driven to completion (the `for _ in self._inject()`
loop of `execute`): spawn the first stage (setting `stdin=subprocess.PIPE`
when its `StdinType` is `PIPE`), spawn the remaining stages in order,
write the initial input if the first process has a stdin pipe, clear the
pending stage list, drain, and trim.  An exception at any point
propagates; note that `self._args.clear()` runs only after all spawns and
the initial write succeeded. -/
def injectRun (env : Env) (sh : ShellState) : ExecResult :=
  match sh._args with
  | [] =>
      { shell := sh, procs := [], outcome := Except.error Exc.assertionError,
        phase := Phase.notRun }
  | a0 :: rest =>
      let k0 :=
        if a0.stdin = StdinType.PIPE then { a0.kwargs with stdin := StdinKw.PIPE }
        else a0.kwargs
      match env 0 with
      | Except.error e =>
          { shell := sh, procs := [], outcome := Except.error e, phase := Phase.spawning }
      | Except.ok b0 =>
          let p0 := mkProc k0 b0
          match spawnRest env 1 rest [p0] with
          | (ps, some e) =>
              { shell := sh, procs := ps, outcome := Except.error e, phase := Phase.spawning }
          | (ps, none) =>
              if p0.hasStdin then
                match b0.writeRes with
                | Except.error e =>
                    { shell := sh, procs := ps, outcome := Except.error e,
                      phase := Phase.writing }
                | Except.ok _ => drainAndFinish sh ps
              else drainAndFinish sh ps

/-- Model of `Shell.execute` (shell.py lines 87-93): no-op when fewer than one
stage is pending, otherwise run `_inject` to completion. -/
def executeRun (env : Env) (sh : ShellState) : ExecResult :=
  if sh._args.length < 1 then
    { shell := sh, procs := [], outcome := Except.ok (), phase := Phase.notRun }
  else injectRun env sh

/-- The in-place mutation `self._args[-1].kwargs["stderr"] = subprocess.PIPE`
performed by `_add_args` when a `stderr_as_stdin` request is honoured. -/
def setLastStderrPipe (l : List PopenArgs) : List PopenArgs :=
  match l.getLast? with
  | none => l
  | some last =>
      l.dropLast ++ [{ last with kwargs := { last.kwargs with stderr := some Special.PIPE } }]

/-- Model of `Shell._add_args` (shell.py lines 171-202): resolve the new stage's
`StdinType` against the previous stage's kwargs (honouring a
`stderr_as_stdin` request only when the previous stderr kwarg is
`subprocess.PIPE` or `None`, in which case the previous stderr is forced
to a pipe; otherwise silently falling back), build the kwargs from the
fallbacks and `stderr_to_stdout`, append the stage, and consume
`self._input`.  No branch raises. -/
def addArgs (sh : ShellState) (command : String) (stderr_to_stdout stderr_as_stdin : Bool)
    (fallback_stdout fallback_stderr : Option Special) : ShellState :=
  let resolved : List PopenArgs × StdinType :=
    match sh._args.getLast? with
    | some prev =>
        if (prev.kwargs.stderr = some Special.PIPE ∨ prev.kwargs.stderr = none) ∧
            stderr_as_stdin = true then
          (setLastStderrPipe sh._args, StdinType.STDERR)
        else if prev.kwargs.stderr = some Special.STDOUT ∨
            prev.kwargs.stdout = some Special.PIPE then
          (sh._args, StdinType.STDOUT)
        else (sh._args, StdinType.NOINPUT)
    | none =>
        if sh._input ≠ none then (sh._args, StdinType.PIPE)
        else (sh._args, StdinType.NOINPUT)
  let kwargs : Kwargs :=
    { stdout := fallback_stdout,
      stderr := if stderr_to_stdout = true then some Special.STDOUT else fallback_stderr,
      stdin := StdinKw.noneVal }
  let a : PopenArgs :=
    { stdin := resolved.2, args := command, kwargs := kwargs, input := sh._input }
  { sh with _input := none, _args := resolved.1 ++ [a] }

/-- Model of `Shell.run(command, stderr_to_stdout)`: add a stage with `None`
fallbacks for stdout/stderr, then execute. -/
def run (env : Env) (sh : ShellState) (command : String) (stderr_to_stdout : Bool) :
    ExecResult :=
  executeRun env (addArgs sh command stderr_to_stdout false none none)

/-- Model of `Shell.pipe(command, stderr_to_stdout, stderr_as_stdin)`: add a stage
with `subprocess.PIPE` fallbacks for stdout and stderr; no execution. -/
def pipe (sh : ShellState) (command : String) (stderr_to_stdout stderr_as_stdin : Bool) :
    ShellState :=
  addArgs sh command stderr_to_stdout stderr_as_stdin (some Special.PIPE) (some Special.PIPE)

/-- Model of `Shell.input(data)` (shell.py lines 223-229): asserts (raises) when a
stage was already added, otherwise stores the pending input buffer. -/
def input (sh : ShellState) (data : String) : Except Exc ShellState :=
  if sh._args ≠ [] then Except.error Exc.assertionError
  else Except.ok { sh with _input := some data }

/-- Python `l[i]` on a list of strings: non-negative indices in range,
negative indices counted from the end, `IndexError` otherwise. -/
def pyGet (l : List String) (i : Int) : Except Exc String :=
  if 0 ≤ i then
    match l.get? i.toNat with
    | some s => Except.ok s
    | none => Except.error Exc.indexError
  else if 0 ≤ (l.length : Int) + i then
    match l.get? ((l.length : Int) + i).toNat with
    | some s => Except.ok s
    | none => Except.error Exc.indexError
  else Except.error Exc.indexError

/-- Model of `Shell.argv(index)` (shell.py lines 231-235), with `sys.argv` passed
explicitly: `""` when `index >= len(sys.argv)`, else `sys.argv[index]`. -/
def argv (sysargv : List String) (index : Int) : Except Exc String :=
  if (sysargv.length : Int) ≤ index then Except.ok ""
  else pyGet sysargv index

/-- The truthiness chain `self.stdout or self.stderr or ""` of the
`output` property, applied to already-executed fields. -/
def orTruthy (a : Option String) (b : String) : String :=
  match a with
  | some s => if s = "" then b else s
  | none => b

/-- The value the `output` property reads off an executed shell. -/
def outputValue (sh : ShellState) : String :=
  orTruthy sh._stdout (orTruthy sh._stderr "")

/-! ## Helper lemmas -/

theorem killAll_killed (ps : List Proc) : ∀ p ∈ killAll ps, p.killed = true := by
  intro p hp
  simp only [killAll, List.mem_map] at hp
  obtain ⟨q, _, rfl⟩ := hp
  rfl

theorem afterRead_args (sh : ShellState) (ps : List Proc) (last : Proc) :
    (afterRead sh ps last).shell._args = sh._args := by
  cases hw : last.waitRes <;> simp [afterRead, hw]

theorem multipleCommunicate_args (sh : ShellState) (ps : List Proc) :
    (multipleCommunicate sh ps).shell._args = sh._args := by
  cases hl : ps.getLast? with
  | none => simp [multipleCommunicate, hl]
  | some last =>
      cases ho : last.readStdout with
      | some r =>
          cases r with
          | error e => simp [multipleCommunicate, hl, ho]
          | ok s => simp [multipleCommunicate, hl, ho, afterRead_args]
      | none =>
          cases he : last.readStderr with
          | some r =>
              cases r with
              | error e => simp [multipleCommunicate, hl, ho, he]
              | ok s => simp [multipleCommunicate, hl, ho, he, afterRead_args]
          | none => simp [multipleCommunicate, hl, ho, he, afterRead_args]

theorem trimStdout_args (sh : ShellState) : (trimStdout sh)._args = sh._args := by
  unfold trimStdout
  cases sh._stdout with
  | none => rfl
  | some s => by_cases h : (s.data ≠ [] ∧ s.data.getLast? = some '\n') <;> simp [h]

/-- A run that returned normally left the pending stage list empty. -/
theorem executeRun_ok_args_empty (env : Env) (sh : ShellState) (u : Unit)
    (h : (executeRun env sh).outcome = Except.ok u) :
    (executeRun env sh).shell._args = [] := by
  unfold executeRun at *
  by_cases hlen : sh._args.length < 1
  · simp only [hlen, if_pos] at h ⊢
    exact List.length_eq_zero.mp (by omega)
  · simp only [hlen, if_neg, not_false_iff] at h ⊢
    unfold injectRun at *
    cases ha : sh._args with
    | nil => simp [ha] at hlen
    | cons a0 rest =>
        simp only [ha] at h ⊢
        cases h0 : env 0 with
        | error e => simp [h0] at h
        | ok b0 =>
            simp only [h0] at h ⊢
            cases hs : spawnRest env 1 rest
              [mkProc (if a0.stdin = StdinType.PIPE then
                { a0.kwargs with stdin := StdinKw.PIPE } else a0.kwargs) b0] with
            | mk ps exc =>
                cases exc with
                | some e => simp [hs] at h
                | none =>
                    simp only [hs] at h ⊢
                    have hfin : ∀ ps' : List Proc,
                        (drainAndFinish sh ps').shell._args = [] := by
                      intro ps'
                      unfold drainAndFinish
                      cases hc :
                          (multipleCommunicate { sh with _args := [] } ps').outcome with
                      | error e =>
                          simp only [hc]
                          have := multipleCommunicate_args { sh with _args := [] } ps'
                          simpa using this
                      | ok u' =>
                          simp only [hc]
                          have h1 := trimStdout_args
                            (multipleCommunicate { sh with _args := [] } ps').shell
                          have h2 := multipleCommunicate_args { sh with _args := [] } ps'
                          simp only [h1, h2]
                    cases hstdin : (mkProc (if a0.stdin = StdinType.PIPE then
                        { a0.kwargs with stdin := StdinKw.PIPE } else a0.kwargs)
                          b0).hasStdin with
                    | true =>
                        simp only [hstdin, if_pos] at h ⊢
                        cases hw : b0.writeRes with
                        | error e => simp [hw] at h
                        | ok _ => simp only [hw] at h ⊢; exact hfin _
                    | false =>
                        simp only [hstdin, Bool.false_eq_true, if_false] at h ⊢
                        exact hfin _

/-! ## Claims -/

/-- C1: if an exception is raised while draining — reading the last
stage's captured stream or waiting on it — then `_multiple_communicate`
kills every process in the pipeline and re-raises the original exception
after this cleanup; no normal result is produced on this path. -/
theorem drain_exception_kills_all_and_reraises (sh : ShellState) (ps : List Proc)
    (e : Exc) (h : drainError ps = some e) :
    (multipleCommunicate sh ps).outcome = Except.error e ∧
    (multipleCommunicate sh ps).procs = killAll ps ∧
    ∀ p ∈ (multipleCommunicate sh ps).procs, p.killed = true := by
  have step : (multipleCommunicate sh ps).outcome = Except.error e ∧
      (multipleCommunicate sh ps).procs = killAll ps := by
    cases hl : ps.getLast? with
    | none =>
        simp only [drainError, hl, Option.some_inj] at h
        simp [multipleCommunicate, hl, h]
    | some last =>
        cases ho : last.readStdout with
        | some r =>
            cases r with
            | error e' =>
                simp only [drainError, hl, ho, Option.some_inj] at h
                simp [multipleCommunicate, hl, ho, h]
            | ok s =>
                cases hw : last.waitRes with
                | error e' =>
                    simp only [drainError, hl, ho, hw, Option.some_inj] at h
                    simp [multipleCommunicate, afterRead, hl, ho, hw, h]
                | ok _ => simp [drainError, hl, ho, hw] at h
        | none =>
            cases he : last.readStderr with
            | some r =>
                cases r with
                | error e' =>
                    simp only [drainError, hl, ho, he, Option.some_inj] at h
                    simp [multipleCommunicate, hl, ho, he, h]
                | ok s =>
                    cases hw : last.waitRes with
                    | error e' =>
                        simp only [drainError, hl, ho, he, hw, Option.some_inj] at h
                        simp [multipleCommunicate, afterRead, hl, ho, he, hw, h]
                    | ok _ => simp [drainError, hl, ho, he, hw] at h
            | none =>
                cases hw : last.waitRes with
                | error e' =>
                    simp only [drainError, hl, ho, he, hw, Option.some_inj] at h
                    simp [multipleCommunicate, afterRead, hl, ho, he, hw, h]
                | ok _ => simp [drainError, hl, ho, he, hw] at h
  refine ⟨step.1, step.2, ?_⟩
  rw [step.2]
  exact killAll_killed ps

/-- A process whose captured-stdout read raises `KeyboardInterrupt`. -/
def interruptedProc : Proc where
  readStdout := some (Except.error Exc.keyboardInterrupt)
  readStderr := none
  hasStdin := false
  waitRes := Except.ok ()
  pollVal := some 0

/-- A process that drains normally with exit status 0. -/
def quietProc : Proc where
  readStdout := none
  readStderr := none
  hasStdin := false
  waitRes := Except.ok ()
  pollVal := some 0

theorem drain_exception_kills_all_and_reraises_witness :
    (multipleCommunicate {} [quietProc, interruptedProc]).outcome =
      Except.error Exc.keyboardInterrupt ∧
    (multipleCommunicate {} [quietProc, interruptedProc]).procs =
      killAll [quietProc, interruptedProc] ∧
    ∀ p ∈ (multipleCommunicate {} [quietProc, interruptedProc]).procs,
      p.killed = true :=
  drain_exception_kills_all_and_reraises {} [quietProc, interruptedProc]
    Exc.keyboardInterrupt rfl

/-- An environment in which every spawn attempt fails with `OSError`
(e.g. the executable does not exist). -/
def spawnFailEnv : Env := fun _ => Except.error Exc.osError

/-- An environment in which every stage spawns, prints `A\n` on stdout and
`E\n` on stderr, exits with status 0, and accepts its input quietly. -/
def okEnv : Env := fun _ =>
  Except.ok { outContent := Except.ok "A\n", errContent := Except.ok "E\n" }

/-- C2 counterexample: a pipeline with one pending stage whose spawn fails
(`Popen` raises `OSError`).  `execute` raises, but the pending stage list
is *not* cleared — `self._args.clear()` is only reached after every stage
spawned — so the claim "the pending stage list is empty after execute
returns or raises, including when spawning fails" is false. -/
theorem spawn_failure_leaves_pending_stages :
    (addArgs {} "missing-binary" false false none none)._args.length = 1 ∧
    (executeRun spawnFailEnv (addArgs {} "missing-binary" false false none none)).outcome
      = Except.error Exc.osError ∧
    (executeRun spawnFailEnv (addArgs {} "missing-binary" false false none none)).shell._args
      ≠ [] := by
  refine ⟨rfl, rfl, ?_⟩
  simp [executeRun, injectRun, addArgs, spawnFailEnv]

/-- C2 amended: once every stage has spawned and the initial input has been
written, the pending stage list is cleared before draining, so it is empty
when `execute` returns normally and also when draining raises; but when a
spawn (or the initial input write) fails, `execute` raises with the
pending stage list left unchanged. -/
theorem pending_stages_cleared_iff_drain_reached (env : Env) (sh : ShellState) :
    ((executeRun env sh).phase = Phase.draining ∨ (executeRun env sh).phase = Phase.done →
      (executeRun env sh).shell._args = []) ∧
    ((executeRun env sh).phase = Phase.spawning ∨ (executeRun env sh).phase = Phase.writing →
      (executeRun env sh).shell = sh) := by
  have hfin : ∀ ps : List Proc,
      ((drainAndFinish sh ps).phase = Phase.draining ∨
        (drainAndFinish sh ps).phase = Phase.done →
        (drainAndFinish sh ps).shell._args = []) ∧
      ((drainAndFinish sh ps).phase = Phase.spawning ∨
        (drainAndFinish sh ps).phase = Phase.writing →
        (drainAndFinish sh ps).shell = sh) := by
    intro ps
    unfold drainAndFinish
    cases hc : (multipleCommunicate { sh with _args := [] } ps).outcome with
    | error e =>
        simp only [hc]
        refine ⟨fun _ => ?_, fun hph => by simp at hph⟩
        have := multipleCommunicate_args { sh with _args := [] } ps
        simpa using this
    | ok u =>
        simp only [hc]
        refine ⟨fun _ => ?_, fun hph => by simp at hph⟩
        have h1 := trimStdout_args (multipleCommunicate { sh with _args := [] } ps).shell
        have h2 := multipleCommunicate_args { sh with _args := [] } ps
        simp only [h1, h2]
  unfold executeRun
  by_cases hlen : sh._args.length < 1
  · simp only [hlen, if_pos]
    refine ⟨fun _ => ?_, fun hph => by simp at hph⟩
    have hnil : sh._args = [] := List.length_eq_zero.mp (by omega)
    simpa using hnil
  · simp only [hlen, if_neg, not_false_iff]
    unfold injectRun
    cases ha : sh._args with
    | nil => simp [ha] at hlen
    | cons a0 rest =>
        try simp only [ha]
        cases h0 : env 0 with
        | error e =>
            try simp only [h0]
            exact ⟨fun hph => by simp at hph, fun _ => by trivial⟩
        | ok b0 =>
            try simp only [h0]
            cases hs : spawnRest env 1 rest
              [mkProc (if a0.stdin = StdinType.PIPE then
                { a0.kwargs with stdin := StdinKw.PIPE } else a0.kwargs) b0] with
            | mk ps exc =>
                cases exc with
                | some e =>
                    try simp only [hs]
                    exact ⟨fun hph => by simp at hph, fun _ => by trivial⟩
                | none =>
                    try simp only [hs]
                    cases hstdin : (mkProc (if a0.stdin = StdinType.PIPE then
                        { a0.kwargs with stdin := StdinKw.PIPE } else a0.kwargs)
                          b0).hasStdin with
                    | true =>
                        simp only [hstdin, if_pos]
                        cases hw : b0.writeRes with
                        | error e =>
                            try simp only [hw]
                            exact ⟨fun hph => by simp at hph, fun _ => by trivial⟩
                        | ok _ =>
                            try simp only [hw]
                            exact hfin ps
                    | false =>
                        simp only [hstdin, Bool.false_eq_true, if_false]
                        exact hfin ps

theorem pending_stages_cleared_iff_drain_reached_witness :
    (executeRun okEnv (pipe {} "echo a" false false)).phase = Phase.done ∧
    (executeRun okEnv (pipe {} "echo a" false false)).shell._args = [] :=
  ⟨rfl,
   (pending_stages_cleared_iff_drain_reached okEnv (pipe {} "echo a" false false)).1
     (Or.inr rfl)⟩

/-- An environment whose single process is terminated by a signal: on
POSIX `poll()` then reports the negated signal number, here `-9`
(`SIGKILL`). -/
def signalEnv : Env := fun _ =>
  Except.ok { outContent := Except.ok "A\n", errContent := Except.ok "E\n",
              pollVal := some (-9) }

/-- C3 counterexample: a completed run whose last stage was killed by
signal 9, so `poll()` reports `-9`.  `poll() or 0` keeps every non-zero
value — a negative int is truthy in Python — so the reported exit code is
`-9`, not the `0` the claim's "negative status is normalized to 0"
requires. -/
theorem negative_exit_status_not_normalized :
    (executeRun signalEnv (pipe {} "cmd" false false)).outcome = Except.ok () ∧
    (executeRun signalEnv (pipe {} "cmd" false false)).shell._return_code = -9 ∧
    (executeRun signalEnv (pipe {} "cmd" false false)).shell._return_code ≠ 0 := by
  refine ⟨rfl, rfl, ?_⟩
  simp [executeRun, injectRun, addArgs, pipe, signalEnv, drainAndFinish,
    multipleCommunicate, afterRead, mkProc, trimStdout, spawnRest, pyOrZero]

/-- C3 amended: for a completed run, the reported exit code is the last
stage's `poll()` value with only a `None` (null) status normalized to `0`;
a negative status (signal termination) is reported unchanged, since
`poll() or 0` only replaces the falsy values `None` and `0`. -/
theorem exit_code_is_last_poll_with_none_as_zero (sh : ShellState) (ps : List Proc)
    (last : Proc) (u : Unit) (hlast : ps.getLast? = some last)
    (hok : (multipleCommunicate sh ps).outcome = Except.ok u) :
    (multipleCommunicate sh ps).shell._return_code = last.pollVal.getD 0 := by
  have hgetD : pyOrZero last.pollVal = last.pollVal.getD 0 := by
    unfold pyOrZero
    cases last.pollVal with
    | none => rfl
    | some n => by_cases hn : n = 0 <;> simp [hn]
  cases ho : last.readStdout with
  | some r =>
      cases r with
      | error e => simp [multipleCommunicate, hlast, ho] at hok
      | ok s =>
          cases hw : last.waitRes with
          | error e => simp [multipleCommunicate, afterRead, hlast, ho, hw] at hok
          | ok _ => simp [multipleCommunicate, afterRead, hlast, ho, hw, hgetD]
  | none =>
      cases he : last.readStderr with
      | some r =>
          cases r with
          | error e => simp [multipleCommunicate, hlast, ho, he] at hok
          | ok s =>
              cases hw : last.waitRes with
              | error e => simp [multipleCommunicate, afterRead, hlast, ho, he, hw] at hok
              | ok _ => simp [multipleCommunicate, afterRead, hlast, ho, he, hw, hgetD]
      | none =>
          cases hw : last.waitRes with
          | error e => simp [multipleCommunicate, afterRead, hlast, ho, he, hw] at hok
          | ok _ => simp [multipleCommunicate, afterRead, hlast, ho, he, hw, hgetD]

/-- A process that was killed by signal 9 and whose streams were not
captured. -/
def signaledProc : Proc where
  readStdout := none
  readStderr := none
  hasStdin := false
  waitRes := Except.ok ()
  pollVal := some (-9)

theorem exit_code_is_last_poll_with_none_as_zero_witness :
    (multipleCommunicate {} [signaledProc]).shell._return_code =
      (signaledProc.pollVal).getD 0 :=
  exit_code_is_last_poll_with_none_as_zero {} [signaledProc] signaledProc () rfl rfl

/-- C4 counterexample: a completed run whose last stage captured stderr
ending in a newline.  Lines 125-126 of shell.py trim only `self._stdout`;
the captured stderr keeps its trailing newline, so the claim that stderr
"receives the same trimming" is false. -/
theorem stderr_trailing_newline_not_trimmed :
    (executeRun okEnv (addArgs {} "cmd" false false none (some Special.PIPE))).outcome
      = Except.ok () ∧
    (executeRun okEnv (addArgs {} "cmd" false false none (some Special.PIPE))).shell._stderr
      = some "E\n" ∧
    (some "E\n" : Option String) ≠ some "E" := by
  refine ⟨rfl, rfl, ?_⟩
  simp

/-- C4 amended: on a completed run, the captured stdout is reported with a
single trailing newline stripped when present (and unchanged otherwise),
while the captured stderr is reported exactly as read, with no trimming. -/
theorem stdout_trimmed_stderr_untrimmed (sh : ShellState) (ps : List Proc)
    (last : Proc) (s : String) (hlast : ps.getLast? = some last) :
    (last.readStdout = some (Except.ok s) →
      (drainAndFinish sh ps).outcome = Except.ok () →
      (drainAndFinish sh ps).shell._stdout = some (stripTrailingNl s)) ∧
    (last.readStdout = none → last.readStderr = some (Except.ok s) →
      (drainAndFinish sh ps).outcome = Except.ok () →
      (drainAndFinish sh ps).shell._stderr = some s) := by
  constructor
  · intro ho hok
    cases hw : last.waitRes with
    | error e =>
        simp [drainAndFinish, multipleCommunicate, afterRead, hlast, ho, hw] at hok
    | ok _ =>
        simp only [drainAndFinish, multipleCommunicate, afterRead, hlast, ho, hw]
        simp only [trimStdout, stripTrailingNl]
        by_cases hcond : (¬s.data = [] ∧ s.data.getLast? = some '\n') <;> simp [hcond]
  · intro ho he hok
    cases hw : last.waitRes with
    | error e =>
        simp [drainAndFinish, multipleCommunicate, afterRead, hlast, ho, he, hw] at hok
    | ok _ =>
        simp only [drainAndFinish, multipleCommunicate, afterRead, hlast, ho, he, hw]
        simp only [trimStdout]
        cases hso : sh._stdout with
        | none => simp
        | some t =>
            by_cases hcond : (¬t.data = [] ∧ t.data.getLast? = some '\n') <;> simp [hcond]

/-- A process whose captured stdout read yields `out\n` and whose wait
succeeds with status 0. -/
def stdoutNlProc : Proc where
  readStdout := some (Except.ok "out\n")
  readStderr := none
  hasStdin := false
  waitRes := Except.ok ()
  pollVal := some 0

theorem stdout_trimmed_stderr_untrimmed_witness :
    (drainAndFinish {} [stdoutNlProc]).shell._stdout =
      some (stripTrailingNl "out\n") :=
  (stdout_trimmed_stderr_untrimmed {} [stdoutNlProc] stdoutNlProc "out\n" rfl).1 rfl rfl

/-- C5 counterexample: stage 1 is added with `stderr_to_stdout=True`
(kwarg `stderr=subprocess.STDOUT`, which is not piping-capable), then
stage 2 is added with an explicit `stderr_as_stdin=True` request.  The
claim requires a routing error at construction time; instead `_add_args`
silently appends the stage, resolving its stdin to the previous stdout. -/
theorem stderr_as_stdin_nonpipable_accepted_silently :
    ((pipe {} "a" true false)._args.getLast?).map (fun st => st.kwargs.stderr) =
      some (some Special.STDOUT) ∧
    (pipe (pipe {} "a" true false) "b" false true)._args.length = 2 ∧
    ((pipe (pipe {} "a" true false) "b" false true)._args.getLast?).map PopenArgs.stdin =
      some StdinType.STDOUT := ⟨rfl, rfl, rfl⟩

/-- C5 amended: an explicit request to read the previous stage's stderr is
honoured only when the previous stage's stderr kwarg is `subprocess.PIPE`
or `None` (it is then forced to `subprocess.PIPE` and the new stage's
stdin becomes the previous stderr); in every other case no error is raised
at all — the request is silently ignored and the new stage is appended
with stdin resolved to the previous stdout (when the previous stderr was
merged into stdout or the previous stdout is a pipe) or to no input. -/
theorem stderr_as_stdin_resolution (sh : ShellState) (command : String) (so : Bool)
    (fo fe : Option Special) (prev : PopenArgs)
    (hprev : sh._args.getLast? = some prev) :
    ((prev.kwargs.stderr = some Special.PIPE ∨ prev.kwargs.stderr = none) →
      (addArgs sh command so true fo fe)._args =
        setLastStderrPipe sh._args ++
          [{ stdin := StdinType.STDERR, args := command,
             kwargs := { stdout := fo,
                         stderr := if so = true then some Special.STDOUT else fe,
                         stdin := StdinKw.noneVal },
             input := sh._input }]) ∧
    (¬(prev.kwargs.stderr = some Special.PIPE ∨ prev.kwargs.stderr = none) →
      (addArgs sh command so true fo fe)._args =
        sh._args ++
          [{ stdin := if prev.kwargs.stderr = some Special.STDOUT ∨
                  prev.kwargs.stdout = some Special.PIPE then StdinType.STDOUT
              else StdinType.NOINPUT,
             args := command,
             kwargs := { stdout := fo,
                         stderr := if so = true then some Special.STDOUT else fe,
                         stdin := StdinKw.noneVal },
             input := sh._input }]) := by
  constructor
  · intro hcap
    simp [addArgs, hprev, hcap]
  · intro hcap
    by_cases hfall : prev.kwargs.stderr = some Special.STDOUT ∨
        prev.kwargs.stdout = some Special.PIPE
    · simp [addArgs, hprev, hcap, hfall]
    · simp [addArgs, hprev, hcap, hfall]

theorem stderr_as_stdin_resolution_witness :
    (addArgs (pipe {} "a" false false) "b" false true (some Special.PIPE)
        (some Special.PIPE))._args =
      setLastStderrPipe (pipe {} "a" false false)._args ++
        [{ stdin := StdinType.STDERR, args := "b",
           kwargs := { stdout := some Special.PIPE, stderr := some Special.PIPE,
                       stdin := StdinKw.noneVal },
           input := none }] :=
  (stderr_as_stdin_resolution (pipe {} "a" false false) "b" false (some Special.PIPE)
      (some Special.PIPE) _ rfl).1 (Or.inl rfl)

/-- C6 counterexample: run 1 (`pipe` stage, stdout captured) leaves
`_stdout = "A"`.  Run 2 on the same shell captures stderr only (stage
kwargs `stdout=None, stderr=subprocess.PIPE`), completes, and leaves both
`_stdout = "A"` (stale, from run 1 — the fields are never reset) and
`_stderr = "E\n"` populated, contradicting "at most one of the stdout and
stderr fields is populated, determined by which stream was captured on the
last stage of that run". -/
theorem stdout_and_stderr_both_populated_across_runs :
    (executeRun okEnv
        (addArgs (executeRun okEnv (pipe {} "a" false false)).shell
          "b" false false none (some Special.PIPE))).outcome = Except.ok () ∧
    (executeRun okEnv
        (addArgs (executeRun okEnv (pipe {} "a" false false)).shell
          "b" false false none (some Special.PIPE))).shell._stdout = some "A" ∧
    (executeRun okEnv
        (addArgs (executeRun okEnv (pipe {} "a" false false)).shell
          "b" false false none (some Special.PIPE))).shell._stderr = some "E\n" :=
  ⟨rfl, rfl, rfl⟩

/-- C6 amended: a single `_multiple_communicate` call writes at most one
of the two capture fields — when the last process has a stdout handle,
`_stderr` is left untouched, and when it has none, `_stdout` is left
untouched — but the fields persist across runs on the same `Shell`
object, so a later run that captures the other stream leaves both
populated. -/
theorem single_run_writes_at_most_one_stream (sh : ShellState) (ps : List Proc)
    (last : Proc) (hlast : ps.getLast? = some last) :
    (last.readStdout ≠ none → (multipleCommunicate sh ps).shell._stderr = sh._stderr) ∧
    (last.readStdout = none → (multipleCommunicate sh ps).shell._stdout = sh._stdout) := by
  constructor
  · intro ho
    cases hro : last.readStdout with
    | none => exact absurd hro ho
    | some r =>
        cases r with
        | error e => simp [multipleCommunicate, hlast, hro]
        | ok s =>
            cases hw : last.waitRes <;>
              simp [multipleCommunicate, afterRead, hlast, hro, hw]
  · intro ho
    cases he : last.readStderr with
    | none =>
        cases hw : last.waitRes <;>
          simp [multipleCommunicate, afterRead, hlast, ho, he, hw]
    | some r =>
        cases r with
        | error e => simp [multipleCommunicate, hlast, ho, he]
        | ok s =>
            cases hw : last.waitRes <;>
              simp [multipleCommunicate, afterRead, hlast, ho, he, hw]

theorem single_run_writes_at_most_one_stream_witness :
    (multipleCommunicate {} [quietProc]).shell._stdout = ({} : ShellState)._stdout :=
  (single_run_writes_at_most_one_stream {} [quietProc] quietProc rfl).2 rfl

/-- C9: once a run has completed successfully, reading any output-accessor
property again without adding stages re-enters `execute` on a shell whose
pending list is empty, so the second read is the identity: it spawns no
process (`procs = []`), raises nothing, and leaves every result field
(`_return_code`, `_stdout`, `_stderr`, hence also the derived `output`
value) exactly as the first read returned them. -/
theorem accessor_read_idempotent (env env2 : Env) (sh : ShellState) (u : Unit)
    (h : (executeRun env sh).outcome = Except.ok u) :
    executeRun env2 (executeRun env sh).shell =
      { shell := (executeRun env sh).shell, procs := [], outcome := Except.ok (),
        phase := Phase.notRun } := by
  have hargs := executeRun_ok_args_empty env sh u h
  generalize hres : executeRun env sh = r at hargs ⊢
  simp [executeRun, hargs]

theorem accessor_read_idempotent_witness :
    executeRun okEnv (executeRun okEnv (pipe {} "a" false false)).shell =
      { shell := (executeRun okEnv (pipe {} "a" false false)).shell, procs := [],
        outcome := Except.ok (), phase := Phase.notRun } :=
  accessor_read_idempotent okEnv okEnv (pipe {} "a" false false) () rfl

/-- C7: `Shell.input(data)` raises (assertion failure) when at least one
stage has already been added, and otherwise stores the data as the
pending external-input buffer, changing nothing else and not raising. -/
theorem input_rejects_after_stage_added (sh : ShellState) (data : String) :
    (sh._args = [] → input sh data = Except.ok { sh with _input := some data }) ∧
    (sh._args ≠ [] → input sh data = Except.error Exc.assertionError) := by
  constructor
  · intro h; simp [input, h]
  · intro h; simp [input, h]

theorem input_rejects_after_stage_added_witness :
    (input {} "data" = Except.ok { ({} : ShellState) with _input := some "data" }) ∧
    (input (addArgs {} "cmd" false false none none) "data" =
      Except.error Exc.assertionError) :=
  ⟨(input_rejects_after_stage_added {} "data").1 rfl,
   (input_rejects_after_stage_added (addArgs {} "cmd" false false none none) "data").2
     (by simp [addArgs])⟩

/-- C8: `execute` with no pending stages is a no-op: the shell (and thus
the previous result's exit code, stdout and stderr) is returned unchanged,
no process is spawned, and no exception is raised. -/
theorem execute_empty_is_noop (env : Env) (sh : ShellState) (h : sh._args = []) :
    executeRun env sh =
      { shell := sh, procs := [], outcome := Except.ok (), phase := Phase.notRun } := by
  simp [executeRun, h]

theorem execute_empty_is_noop_witness :
    executeRun (fun _ => Except.error Exc.osError) {} =
      { shell := {}, procs := [], outcome := Except.ok (), phase := Phase.notRun } :=
  execute_empty_is_noop (fun _ => Except.error Exc.osError) {} rfl

/-- C10: `Shell.argv(index)` returns `sys.argv[index]` for
`0 ≤ index < len(sys.argv)`, the empty string for `index ≥ len(sys.argv)`,
and the element selected by Python negative indexing for
`-len(sys.argv) ≤ index < 0`. -/
theorem argv_spec (l : List String) (i : Int) :
    ((l.length : Int) ≤ i → argv l i = Except.ok "") ∧
    (0 ≤ i → i < (l.length : Int) → argv l i = Except.ok (l.getD i.toNat "")) ∧
    (i < 0 → 0 ≤ (l.length : Int) + i →
      argv l i = Except.ok (l.getD ((l.length : Int) + i).toNat "")) := by
  refine ⟨fun h => by simp [argv, h], fun h0 hlt => ?_, fun hneg h0 => ?_⟩
  · have hle : ¬ (l.length : Int) ≤ i := by omega
    have hn : i.toNat < l.length := by omega
    simp only [argv, hle, if_neg, not_false_iff, pyGet, h0, if_pos]
    rw [List.getD_eq_get?, List.get?_eq_get hn]
    rfl
  · have hle : ¬ (l.length : Int) ≤ i := by omega
    have h0i : ¬ 0 ≤ i := by omega
    have hn : ((l.length : Int) + i).toNat < l.length := by omega
    simp only [argv, hle, if_neg, not_false_iff, pyGet, h0i, h0, if_pos]
    rw [List.getD_eq_get?, List.get?_eq_get hn]
    rfl

theorem argv_spec_witness :
    argv ["arg0", "arg1", "arg2"] 1 = Except.ok "arg1" ∧
    argv ["arg0", "arg1", "arg2"] 5 = Except.ok "" ∧
    argv ["arg0", "arg1", "arg2"] (-1) = Except.ok "arg2" :=
  ⟨(argv_spec ["arg0", "arg1", "arg2"] 1).2.1 (by decide) (by decide),
   (argv_spec ["arg0", "arg1", "arg2"] 5).1 (by decide),
   (argv_spec ["arg0", "arg1", "arg2"] (-1)).2.2 (by decide) (by decide)⟩

end Ebash
